import Mathlib

/-!
Verification of the goreflector single-target HTTP reverse proxy
(`proxy.go`).  Go strings are byte sequences; header names are modelled
as `List Nat` of their bytes, header values as Lean `String`s.  A Go
`http.Header` (`map[string][]string` keyed by canonical names) is an
association list with the map invariant (no duplicate keys) supplied as
a hypothesis where a theorem quantifies over arbitrary inbound headers.
-/

namespace GoReflector

/-- Bytes of an ASCII string literal, for writing header-name constants. -/
def strBytes (s : String) : List Nat := s.data.map Char.toNat

/-- Go `net/textproto` valid header-field byte (token characters of RFC 7230):
letters, digits and ``!#$%&'*+-.^_`|~``. -/
def isTokenByte (b : Nat) : Bool :=
  b == 33 || (35 ≤ b && b ≤ 39) || b == 42 || b == 43 || b == 45 || b == 46 ||
  (48 ≤ b && b ≤ 57) || (65 ≤ b && b ≤ 90) || b == 94 || b == 95 || b == 96 ||
  (97 ≤ b && b ≤ 122) || b == 124 || b == 126

/-- ASCII lower-casing of a byte, as Go's canonicalisation loop performs it. -/
def lowerByte (b : Nat) : Nat := if 65 ≤ b ∧ b ≤ 90 then b + 32 else b

/-- ASCII upper-casing of a byte. -/
def upperByte (b : Nat) : Nat := if 97 ≤ b ∧ b ≤ 122 then b - 32 else b

/-- The case-normalising loop of Go's `textproto.CanonicalMIMEHeaderKey`:
upper-case a letter at the start and after each `-` (byte 45), lower-case
every other letter. -/
def canonLoop : Bool → List Nat → List Nat
  | _, [] => []
  | up, b :: rest =>
      let c := if up then upperByte b else lowerByte b
      c :: canonLoop (c = 45) rest

/-- Go `http.CanonicalHeaderKey`: if every byte is a valid header-field
byte, case-normalise with `canonLoop`; otherwise return the key unchanged. -/
def canonicalHeaderKey (k : List Nat) : List Nat :=
  if k.all isTokenByte then canonLoop true k else k

/-- A Go `http.Header` / `textproto.MIMEHeader`: canonical name ↦ ordered
values.  Modelled as an association list (Go maps have no duplicate keys). -/
abbrev Header := List (List Nat × List String)

/-- Values stored under an (already canonical) key; `[]` when absent. -/
def headerValues : Header → List Nat → List String
  | [], _ => []
  | (k, vs) :: rest, ck => if k = ck then vs else headerValues rest ck

/-- Append one value under an already canonical key (`h[key] = append(h[key], v)`). -/
def addEntry : Header → List Nat → String → Header
  | [], ck, v => [(ck, [v])]
  | (k, vs) :: rest, ck, v =>
      if k = ck then (k, vs ++ [v]) :: rest else (k, vs) :: addEntry rest ck v

/-- Replace all values under an already canonical key (`h[key] = []string{v}`). -/
def setEntry : Header → List Nat → String → Header
  | [], ck, v => [(ck, [v])]
  | (k, vs) :: rest, ck, v =>
      if k = ck then (k, [v]) :: rest else (k, vs) :: setEntry rest ck v

/-- Go `Header.Add`: canonicalise the name, then append the value. -/
def headerAdd (h : Header) (key : List Nat) (value : String) : Header :=
  addEntry h (canonicalHeaderKey key) value

/-- Go `Header.Set`: canonicalise the name, then replace the values. -/
def headerSet (h : Header) (key : List Nat) (value : String) : Header :=
  setEntry h (canonicalHeaderKey key) value

/-- Go `Header.Values`: all values under the canonicalised name. -/
def headerValuesOf (h : Header) (key : List Nat) : List String :=
  headerValues h (canonicalHeaderKey key)

/-- Go `Header.Get`: first value under the canonicalised name, `""` if none. -/
def headerGet (h : Header) (key : List Nat) : String :=
  match headerValuesOf h key with
  | [] => ""
  | v :: _ => v

/-- The relevant fields of a Go `url.URL` as the proxy uses them. -/
structure URL where
  scheme : String
  host : String
  path : String
  rawQuery : String
deriving DecidableEq

/-- `ProxyConfig` from `proxy.go`; `timeout` is a `time.Duration` in
nanoseconds, `customHeaders` the entries of the `map[string]string`. -/
structure ProxyConfig where
  listenAddr : String
  targetURL : Option URL
  timeout : Int
  customHeaders : List (List Nat × String)
deriving DecidableEq

/-- A `*log.Logger`; only its identity matters to the claims. -/
inductive Logger where
  | default
  | custom (id : Nat)
deriving DecidableEq

/-- A constructed `Proxy` (the `http.Client` is summarised by its timeout). -/
structure Proxy where
  config : ProxyConfig
  clientTimeout : Int
  logger : Logger
deriving DecidableEq

/-- Nanoseconds in a second (`time.Second`). -/
def nsPerSecond : Int := 1000000000

/-- `NewProxy` from `proxy.go`: reject a nil target URL or an empty listen
address, default a zero timeout to 30 s and a nil logger to `log.Default()`. -/
def NewProxy (config : ProxyConfig) (logger : Option Logger) : Except String Proxy :=
  if config.targetURL = none then .error "target URL cannot be nil"
  else if config.listenAddr = "" then .error "listen address cannot be empty"
  else
    let config := if config.timeout = 0 then { config with timeout := 30 * nsPerSecond } else config
    let logger := match logger with
      | none => Logger.default
      | some l => l
    .ok { config := config, clientTimeout := config.timeout, logger := logger }

/-- The inbound `*http.Request` fields the engine reads.  `tls` is whether
`r.TLS != nil`; `host` is `r.Host`; `urlPath` is `r.URL.Path`. -/
structure InboundRequest where
  method : String
  urlPath : String
  rawQuery : String
  header : Header
  host : String
  remoteAddr : String
  tls : Bool

/-- The outbound `*http.Request` built by `http.NewRequest` and mutated by
the header pipeline. -/
structure OutboundRequest where
  method : String
  url : URL
  header : Header
  host : String

/-- Go `strings.TrimSuffix(s, "/")`: drop exactly one trailing `/` if present. -/
def trimSuffixSlash (s : String) : String :=
  if s.data.getLast? = some '/' then ⟨s.data.dropLast⟩ else s

/-- `buildTargetURL` from `proxy.go`. -/
def buildTargetURL (target : URL) (r : InboundRequest) : URL :=
  let u : URL :=
    { scheme := target.scheme, host := target.host
      path := r.urlPath, rawQuery := r.rawQuery }
  if target.path ≠ "" ∧ target.path ≠ "/" then
    { u with path := trimSuffixSlash target.path ++ r.urlPath }
  else u

/-- The hop-by-hop header names of `shouldSkipHeader` (already canonical). -/
def hopByHopHeaders : List (List Nat) :=
  [strBytes "Connection", strBytes "Keep-Alive", strBytes "Proxy-Authenticate",
   strBytes "Proxy-Authorization", strBytes "Te", strBytes "Trailers",
   strBytes "Transfer-Encoding", strBytes "Upgrade"]

/-- `shouldSkipHeader` from `proxy.go`: canonicalise and look up in the
hop-by-hop set. -/
def shouldSkipHeader (k : List Nat) : Bool :=
  decide (canonicalHeaderKey k ∈ hopByHopHeaders)

/-- A `for key, values { for _, v { dst.Add(key, v) } }` loop over the
entries of a header map, skipping names with `skip`. -/
def addEntries (skip : List Nat → Bool) (src : Header) (dst : Header) : Header :=
  src.foldl
    (fun d e => if skip e.1 then d else e.2.foldl (fun d v => headerAdd d e.1 v) d)
    dst

/-- The first loop of `copyHeaders`: copy every non-hop-by-hop inbound
header into the outbound request. -/
def copyFilteredHeaders (src : Header) (dst : Header) : Header :=
  addEntries shouldSkipHeader src dst

/-- The header-copy loop of `ServeHTTP`'s response relay: copy every
backend response header into the caller's response writer. -/
def relayHeaders (src : Header) : Header :=
  addEntries (fun _ => false) src []

/-- The custom-header loop of `copyHeaders`: an override canonically named
`Host` sets the outbound `Host` field; any other override replaces the
header values under its name. -/
def applyCustomHeaders (custom : List (List Nat × String)) (dst : OutboundRequest) :
    OutboundRequest :=
  custom.foldl
    (fun d e =>
      if canonicalHeaderKey e.1 = strBytes "Host" then { d with host := e.2 }
      else { d with header := headerSet d.header e.1 e.2 })
    dst

/-- `copyHeaders` from `proxy.go`: filtered copy, then the default `Host`
rewrite to the target's host, then custom overrides. -/
def copyHeaders (target : URL) (custom : List (List Nat × String))
    (src : InboundRequest) (dst : OutboundRequest) : OutboundRequest :=
  let dst := { dst with header := copyFilteredHeaders src.header dst.header }
  let dst := { dst with host := target.host }
  applyCustomHeaders custom dst

/-- Go `strings.Split` on a one-character separator. -/
def splitAux (sep : Char) : List Char → List Char → List String
  | [], acc => [⟨acc.reverse⟩]
  | c :: cs, acc =>
      if c = sep then (⟨acc.reverse⟩ : String) :: splitAux sep cs []
      else splitAux sep cs (c :: acc)

/-- Go `strings.Split(s, sep)` for a single-character `sep`. -/
def splitChar (s : String) (sep : Char) : List String := splitAux sep s.data []

/-- Go `unicode.IsSpace` (the White_Space property). -/
def isSpaceChar (c : Char) : Bool :=
  c.toNat ∈ [9, 10, 11, 12, 13, 32, 133, 160, 5760,
    8192, 8193, 8194, 8195, 8196, 8197, 8198, 8199, 8200, 8201, 8202,
    8232, 8233, 8239, 8287, 12288]

/-- Go `strings.TrimSpace`. -/
def trimSpace (s : String) : String :=
  ⟨((s.data.dropWhile isSpaceChar).reverse.dropWhile isSpaceChar).reverse⟩

/-- Index of the last occurrence of `c` in `l` (Go's `last` helper). -/
def lastIndexOf (c : Char) (l : List Char) : Option Nat :=
  match l with
  | [] => none
  | x :: xs =>
      match lastIndexOf c xs with
      | some i => some (i + 1)
      | none => if x = c then some 0 else none

/-- Index of the first occurrence of `c` in `l`. -/
def firstIndexOf (c : Char) (l : List Char) : Option Nat :=
  match l with
  | [] => none
  | x :: xs =>
      if x = c then some 0
      else match firstIndexOf c xs with
        | some i => some (i + 1)
        | none => none

/-- Go `net.SplitHostPort`: `some (host, port)` on success, `none` on any
`AddrError`.  Follows `net/ipsock.go` byte for byte. -/
def splitHostPort (hostPort : String) : Option (String × String) :=
  let l := hostPort.data
  match lastIndexOf ':' l with
  | none => none
  | some i =>
    let rest : Option (String × Nat × Nat) :=
      if l.head? = some '[' then
        match firstIndexOf ']' l with
        | none => none
        | some e =>
          if e + 1 = l.length then none
          else if e + 1 = i then some (⟨(l.take e).drop 1⟩, 1, e + 1)
          else none
      else
        let host := l.take i
        if ':' ∈ host then none else some (⟨host⟩, 0, 0)
    match rest with
    | none => none
    | some (host, j, k) =>
      if '[' ∈ l.drop j then none
      else if ']' ∈ l.drop k then none
      else some (host, ⟨l.drop (i + 1)⟩)

/-- The header-name constants of `addForwardedHeaders` / `getClientIP`. -/
def xffKey : List Nat := strBytes "X-Forwarded-For"

/-- `X-Forwarded-Host` as bytes. -/
def xfhKey : List Nat := strBytes "X-Forwarded-Host"

/-- `X-Forwarded-Proto` as bytes. -/
def xfpKey : List Nat := strBytes "X-Forwarded-Proto"

/-- `X-Real-IP` as bytes. -/
def xRealIPKey : List Nat := strBytes "X-Real-IP"

/-- `getClientIP` from `proxy.go`: first `X-Forwarded-For` entry (trimmed)
if the header is present, else `X-Real-IP`, else the peer address with a
syntactically present port stripped. -/
def getClientIP (r : InboundRequest) : String :=
  let xff := headerGet r.header xffKey
  if xff ≠ "" then
    trimSpace ((splitChar xff ',').head?.getD "")
  else
    let realIP := headerGet r.header xRealIPKey
    if realIP ≠ "" then realIP
    else
      match splitHostPort r.remoteAddr with
      | none => r.remoteAddr
      | some (host, _) => host

/-- `addForwardedHeaders` from `proxy.go`. -/
def addForwardedHeaders (src : InboundRequest) (dst : OutboundRequest) : OutboundRequest :=
  let clientIP := getClientIP src
  let dst :=
    if clientIP ≠ "" then
      let prior := headerGet dst.header xffKey
      let clientIP := if prior ≠ "" then prior ++ ", " ++ clientIP else clientIP
      { dst with header := headerSet dst.header xffKey clientIP }
    else dst
  let dst :=
    if src.host ≠ "" then { dst with header := headerSet dst.header xfhKey src.host }
    else dst
  let scheme := if src.tls then "https" else "http"
  { dst with header := headerSet dst.header xfpKey scheme }

/-- The outbound request of `ServeHTTP` just before `httpClient.Do`:
`http.NewRequest` (empty header, `Host` from the URL), `copyHeaders`,
then `addForwardedHeaders`. -/
def buildOutboundRequest (target : URL) (custom : List (List Nat × String))
    (r : InboundRequest) : OutboundRequest :=
  let targetURL := buildTargetURL target r
  let req : OutboundRequest :=
    { method := r.method, url := targetURL, header := [], host := targetURL.host }
  let req := copyHeaders target custom r req
  addForwardedHeaders r req

/-- The hop-by-hop names in ASCII lower case: the case-insensitive
comparison set the specification describes. -/
def hopByHopLower : List (List Nat) := hopByHopHeaders.map (List.map lowerByte)

/-- A backend `*http.Response` as the relay reads it. -/
structure BackendResponse where
  statusCode : Nat
  header : Header
deriving DecidableEq

/-- One `p.logger.Printf` call in `ServeHTTP`, by call site. -/
inductive LogEvent where
  | createRequestError (msg : String)
  | accessLog (method : String) (path : String) (target : URL)
  | proxyError (msg : String)
  | copyBodyError (msg : String)
deriving DecidableEq

/-- What `ServeHTTP` wrote to the caller: status, headers, whether
`httpClient.Do` was reached, and the log lines emitted. -/
structure ServeResult where
  statusCode : Nat
  header : Header
  backendContacted : Bool
  logged : List LogEvent
deriving DecidableEq

/-- `ServeHTTP` from `proxy.go`.  `newRequestErr` is the outcome of
`http.NewRequest` (construction of the outbound request), `doRequest` the
outcome of `httpClient.Do`, and `bodyCopyErr` the outcome of the
`io.Copy` of the response body.  `http.Error` is modelled by the status
code it writes. -/
def serveHTTP (target : URL) (custom : List (List Nat × String)) (r : InboundRequest)
    (newRequestErr : Option String)
    (doRequest : OutboundRequest → Except String BackendResponse)
    (bodyCopyErr : Option String) : ServeResult :=
  let targetURL := buildTargetURL target r
  match newRequestErr with
  | some e =>
      { statusCode := 500, header := [], backendContacted := false
        logged := [.createRequestError e] }
  | none =>
    let req : OutboundRequest :=
      { method := r.method, url := targetURL, header := [], host := targetURL.host }
    let req := copyHeaders target custom r req
    let req := addForwardedHeaders r req
    let logged := [LogEvent.accessLog r.method r.urlPath targetURL]
    match doRequest req with
    | .error e =>
        { statusCode := 502, header := [], backendContacted := true
          logged := logged ++ [.proxyError e] }
    | .ok resp =>
        { statusCode := resp.statusCode, header := relayHeaders resp.header
          backendContacted := true
          logged := logged ++
            (match bodyCopyErr with
             | some e => [LogEvent.copyBodyError e]
             | none => []) }

/-! ### Byte-level case lemmas -/

theorem lowerByte_upperByte (b : Nat) : lowerByte (upperByte b) = lowerByte b := by
  simp only [lowerByte, upperByte]
  split_ifs <;> omega

theorem lowerByte_lowerByte (b : Nat) : lowerByte (lowerByte b) = lowerByte b := by
  simp only [lowerByte]
  split_ifs <;> omega

theorem upperByte_eq_of_lowerByte_eq {a b : Nat} (h : lowerByte a = lowerByte b) :
    upperByte a = upperByte b := by
  simp only [lowerByte] at h
  simp only [upperByte]
  split_ifs at * <;> omega

theorem isTokenByte_lowerByte {b : Nat} (h : isTokenByte b = true) :
    isTokenByte (lowerByte b) = true := by
  simp only [isTokenByte, lowerByte, Bool.or_eq_true, Bool.and_eq_true, beq_iff_eq,
    decide_eq_true_eq] at *
  split_ifs <;> omega

theorem isTokenByte_of_lowerByte {b : Nat} (h : isTokenByte (lowerByte b) = true) :
    isTokenByte b = true := by
  simp only [isTokenByte, lowerByte, Bool.or_eq_true, Bool.and_eq_true, beq_iff_eq,
    decide_eq_true_eq] at *
  split_ifs at h <;> omega

/-! ### Canonicalisation lemmas -/

theorem map_lowerByte_canonLoop (up : Bool) (l : List Nat) :
    (canonLoop up l).map lowerByte = l.map lowerByte := by
  induction l generalizing up with
  | nil => rfl
  | cons b rest ih =>
    simp only [canonLoop, List.map, ih]
    cases up <;> simp [lowerByte_upperByte, lowerByte_lowerByte]

theorem canonLoop_eq_of_lowerByte_eq {l m : List Nat}
    (h : l.map lowerByte = m.map lowerByte) (up : Bool) :
    canonLoop up l = canonLoop up m := by
  induction l generalizing m up with
  | nil => cases m <;> simp_all [List.map]
  | cons a l ih =>
    cases m with
    | nil => simp at h
    | cons b m =>
      simp only [List.map, List.cons.injEq] at h
      obtain ⟨h1, h2⟩ := h
      have hc : (if up then upperByte a else lowerByte a)
          = (if up then upperByte b else lowerByte b) := by
        cases up <;> simp [h1, upperByte_eq_of_lowerByte_eq h1]
      simp only [canonLoop, hc, List.cons.injEq, true_and]
      exact ih h2 _

theorem all_isTokenByte_of_lowerByte_eq {l m : List Nat}
    (h : l.map lowerByte = m.map lowerByte) (hm : m.all isTokenByte = true) :
    l.all isTokenByte = true := by
  induction l generalizing m with
  | nil => rfl
  | cons a l ih =>
    cases m with
    | nil => simp at h
    | cons b m =>
      simp only [List.map, List.cons.injEq] at h
      simp only [List.all_cons, Bool.and_eq_true] at hm ⊢
      refine ⟨isTokenByte_of_lowerByte ?_, ih h.2 hm.2⟩
      rw [h.1]
      exact isTokenByte_lowerByte hm.1

theorem map_lowerByte_canonicalHeaderKey (k : List Nat) :
    (canonicalHeaderKey k).map lowerByte = k.map lowerByte := by
  unfold canonicalHeaderKey
  split
  · exact map_lowerByte_canonLoop true k
  · rfl

theorem canonicalHeaderKey_eq_iff_lowerByte_eq {name : List Nat}
    (hval : name.all isTokenByte = true) (hfix : canonLoop true name = name)
    (k : List Nat) :
    canonicalHeaderKey k = name ↔ k.map lowerByte = name.map lowerByte := by
  constructor
  · intro h
    rw [← h]
    exact (map_lowerByte_canonicalHeaderKey k).symm
  · intro h
    have hk : k.all isTokenByte = true := all_isTokenByte_of_lowerByte_eq h hval
    unfold canonicalHeaderKey
    rw [if_pos hk]
    rw [canonLoop_eq_of_lowerByte_eq h true, hfix]

theorem hopByHop_valid :
    ∀ name ∈ hopByHopHeaders, name.all isTokenByte = true ∧ canonLoop true name = name := by
  decide

theorem shouldSkipHeader_iff (k : List Nat) :
    shouldSkipHeader k = true ↔ k.map lowerByte ∈ hopByHopLower := by
  unfold shouldSkipHeader
  rw [decide_eq_true_eq]
  constructor
  · intro h
    have : (canonicalHeaderKey k).map lowerByte ∈ hopByHopLower :=
      List.mem_map_of_mem (List.map lowerByte) h
    rwa [map_lowerByte_canonicalHeaderKey] at this
  · intro h
    obtain ⟨name, hmem, heq⟩ := List.mem_map.1 h
    obtain ⟨hval, hfix⟩ := hopByHop_valid name hmem
    have : canonicalHeaderKey k = name :=
      (canonicalHeaderKey_eq_iff_lowerByte_eq hval hfix k).2 heq.symm
    rwa [this]

/-! ### Header map lemmas -/

theorem headerValues_addEntry_self (h : Header) (ck : List Nat) (v : String) :
    headerValues (addEntry h ck v) ck = headerValues h ck ++ [v] := by
  induction h with
  | nil => simp [addEntry, headerValues]
  | cons e rest ih =>
    obtain ⟨k, vs⟩ := e
    by_cases hk : k = ck
    · subst hk
      simp [addEntry, headerValues]
    · simp [addEntry, headerValues, hk, ih]

theorem headerValues_addEntry_ne (h : Header) {ck ck' : List Nat} (v : String)
    (hne : ck' ≠ ck) : headerValues (addEntry h ck v) ck' = headerValues h ck' := by
  induction h with
  | nil => simp [addEntry, headerValues, Ne.symm hne]
  | cons e rest ih =>
    obtain ⟨k, vs⟩ := e
    by_cases hk : k = ck
    · subst hk
      simp [addEntry, headerValues, Ne.symm hne]
    · simp [addEntry, headerValues, hk, ih]

theorem headerValues_setEntry_self (h : Header) (ck : List Nat) (v : String) :
    headerValues (setEntry h ck v) ck = [v] := by
  induction h with
  | nil => simp [setEntry, headerValues]
  | cons e rest ih =>
    obtain ⟨k, vs⟩ := e
    by_cases hk : k = ck
    · subst hk
      simp [setEntry, headerValues]
    · simp [setEntry, headerValues, hk, ih]

theorem headerValues_setEntry_ne (h : Header) {ck ck' : List Nat} (v : String)
    (hne : ck' ≠ ck) : headerValues (setEntry h ck v) ck' = headerValues h ck' := by
  induction h with
  | nil => simp [setEntry, headerValues, Ne.symm hne]
  | cons e rest ih =>
    obtain ⟨k, vs⟩ := e
    by_cases hk : k = ck
    · subst hk
      simp [setEntry, headerValues, Ne.symm hne]
    · simp [setEntry, headerValues, hk, ih]

theorem headerValues_foldAdd (vs : List String) (k : List Nat) (d : Header) :
    headerValues (vs.foldl (fun d v => headerAdd d k v) d) (canonicalHeaderKey k)
      = headerValues d (canonicalHeaderKey k) ++ vs := by
  induction vs generalizing d with
  | nil => simp
  | cons v vs ih =>
    rw [List.foldl_cons, ih]
    unfold headerAdd
    rw [headerValues_addEntry_self]
    simp

theorem headerValues_foldAdd_ne (vs : List String) (k : List Nat) (d : Header)
    {ck : List Nat} (hne : ck ≠ canonicalHeaderKey k) :
    headerValues (vs.foldl (fun d v => headerAdd d k v) d) ck = headerValues d ck := by
  induction vs generalizing d with
  | nil => rfl
  | cons v vs ih =>
    rw [List.foldl_cons, ih]
    unfold headerAdd
    rw [headerValues_addEntry_ne _ _ hne]

theorem headerValues_addEntries (skip : List Nat → Bool) (src : Header) (dst : Header)
    (ck : List Nat) :
    headerValues (addEntries skip src dst) ck
      = headerValues dst ck
        ++ ((src.filter
              (fun e => !skip e.1 && decide (canonicalHeaderKey e.1 = ck))).map
            Prod.snd).flatten := by
  induction src generalizing dst with
  | nil => simp [addEntries]
  | cons e src ih =>
    obtain ⟨k, vs⟩ := e
    have hstep : addEntries skip ((k, vs) :: src) dst
        = addEntries skip src
            (if skip k then dst else vs.foldl (fun d v => headerAdd d k v) dst) := by
      simp [addEntries]
    rw [hstep]
    by_cases hs : skip k
    · rw [if_pos hs, ih]
      simp [List.filter_cons, hs]
    · by_cases hk : canonicalHeaderKey k = ck
      · rw [if_neg hs, ih]
        subst hk
        rw [headerValues_foldAdd]
        simp [List.filter_cons, hs, List.append_assoc]
      · rw [if_neg hs, ih, headerValues_foldAdd_ne _ _ _ (fun hc => hk hc.symm)]
        simp [List.filter_cons, hs, hk]

theorem filter_key_eq_nil {src : Header} {ck : List Nat}
    (h : ck ∉ src.map Prod.fst) :
    src.filter (fun e => decide (e.1 = ck)) = [] := by
  rw [List.filter_eq_nil_iff]
  intro e he
  simp only [decide_eq_true_eq]
  intro hek
  exact h (List.mem_map.2 ⟨e, he, hek⟩)

theorem flatten_filter_key (src : Header) (ck : List Nat)
    (hnodup : (src.map Prod.fst).Nodup) :
    ((src.filter (fun e => decide (e.1 = ck))).map Prod.snd).flatten
      = headerValues src ck := by
  induction src with
  | nil => simp [headerValues]
  | cons e src ih =>
    obtain ⟨k, vs⟩ := e
    simp only [List.map_cons, List.nodup_cons] at hnodup
    by_cases hk : k = ck
    · subst hk
      rw [List.filter_cons_of_pos (by simp), filter_key_eq_nil hnodup.1]
      simp [headerValues]
    · rw [List.filter_cons_of_neg (by simp [hk]), ih hnodup.2]
      simp [headerValues, hk]

/-! ### Custom-override lemmas -/

theorem applyCustomHeaders_host_of_no_host
    {custom : List (List Nat × String)} (d : OutboundRequest)
    (h : ∀ e ∈ custom, canonicalHeaderKey e.1 ≠ strBytes "Host") :
    (applyCustomHeaders custom d).host = d.host := by
  induction custom generalizing d with
  | nil => rfl
  | cons e custom ih =>
    have hstep : applyCustomHeaders (e :: custom) d
        = applyCustomHeaders custom
            (if canonicalHeaderKey e.1 = strBytes "Host" then { d with host := e.2 }
             else { d with header := headerSet d.header e.1 e.2 }) := by
      simp [applyCustomHeaders]
    rw [hstep, if_neg (h e (List.mem_cons_self e custom))]
    exact ih _ (fun x hx => h x (List.mem_cons_of_mem e hx))

theorem applyCustomHeaders_host_override
    {custom : List (List Nat × String)} {n : List Nat} {v : String}
    (d : OutboundRequest) (hmem : (n, v) ∈ custom)
    (huniq : ∀ e ∈ custom, canonicalHeaderKey e.1 = strBytes "Host" → e = (n, v))
    (hn : canonicalHeaderKey n = strBytes "Host") :
    (applyCustomHeaders custom d).host = v := by
  induction custom generalizing d with
  | nil => cases hmem
  | cons e custom ih =>
    have hstep : applyCustomHeaders (e :: custom) d
        = applyCustomHeaders custom
            (if canonicalHeaderKey e.1 = strBytes "Host" then { d with host := e.2 }
             else { d with header := headerSet d.header e.1 e.2 }) := by
      simp [applyCustomHeaders]
    rw [hstep]
    by_cases he : canonicalHeaderKey e.1 = strBytes "Host"
    · have heq : e = (n, v) := huniq e (List.mem_cons_self e custom) he
      rw [if_pos he]
      by_cases hm : (n, v) ∈ custom
      · exact ih _ hm (fun x hx => huniq x (List.mem_cons_of_mem e hx))
      · have hrest : ∀ x ∈ custom, canonicalHeaderKey x.1 ≠ strBytes "Host" := by
          intro x hx hxh
          exact hm ((huniq x (List.mem_cons_of_mem e hx) hxh) ▸ hx)
        rw [applyCustomHeaders_host_of_no_host _ hrest]
        rw [heq]
    · rw [if_neg he]
      have hm : (n, v) ∈ custom := by
        rcases List.mem_cons.1 hmem with h1 | h1
        · subst h1
          exact absurd hn he
        · exact h1
      exact ih _ hm (fun x hx => huniq x (List.mem_cons_of_mem e hx))

theorem applyCustomHeaders_host_header_values
    (custom : List (List Nat × String)) (d : OutboundRequest) :
    headerValues (applyCustomHeaders custom d).header (strBytes "Host")
      = headerValues d.header (strBytes "Host") := by
  induction custom generalizing d with
  | nil => rfl
  | cons e custom ih =>
    have hstep : applyCustomHeaders (e :: custom) d
        = applyCustomHeaders custom
            (if canonicalHeaderKey e.1 = strBytes "Host" then { d with host := e.2 }
             else { d with header := headerSet d.header e.1 e.2 }) := by
      simp [applyCustomHeaders]
    rw [hstep]
    by_cases he : canonicalHeaderKey e.1 = strBytes "Host"
    · rw [if_pos he, ih]
    · rw [if_neg he, ih]
      exact headerValues_setEntry_ne _ _ (fun h => he h.symm)

theorem applyCustomHeaders_values_of_ne
    {custom : List (List Nat × String)} {ck : List Nat} (d : OutboundRequest)
    (h : ∀ e ∈ custom, canonicalHeaderKey e.1 ≠ ck) :
    headerValues (applyCustomHeaders custom d).header ck
      = headerValues d.header ck := by
  induction custom generalizing d with
  | nil => rfl
  | cons e custom ih =>
    have hstep : applyCustomHeaders (e :: custom) d
        = applyCustomHeaders custom
            (if canonicalHeaderKey e.1 = strBytes "Host" then { d with host := e.2 }
             else { d with header := headerSet d.header e.1 e.2 }) := by
      simp [applyCustomHeaders]
    rw [hstep]
    have htail : ∀ x ∈ custom, canonicalHeaderKey x.1 ≠ ck :=
      fun x hx => h x (List.mem_cons_of_mem e hx)
    by_cases he : canonicalHeaderKey e.1 = strBytes "Host"
    · rw [if_pos he, ih _ htail]
    · rw [if_neg he, ih _ htail]
      exact headerValues_setEntry_ne _ _
        (fun hc => h e (List.mem_cons_self e custom) hc.symm)

theorem applyCustomHeaders_values_override
    {custom : List (List Nat × String)} {n : List Nat} {v : String}
    (d : OutboundRequest) (hmem : (n, v) ∈ custom)
    (huniq : ∀ e ∈ custom, canonicalHeaderKey e.1 = canonicalHeaderKey n → e = (n, v))
    (hnotHost : canonicalHeaderKey n ≠ strBytes "Host") :
    headerValues (applyCustomHeaders custom d).header (canonicalHeaderKey n) = [v] := by
  induction custom generalizing d with
  | nil => cases hmem
  | cons e custom ih =>
    have hstep : applyCustomHeaders (e :: custom) d
        = applyCustomHeaders custom
            (if canonicalHeaderKey e.1 = strBytes "Host" then { d with host := e.2 }
             else { d with header := headerSet d.header e.1 e.2 }) := by
      simp [applyCustomHeaders]
    rw [hstep]
    by_cases hek : canonicalHeaderKey e.1 = canonicalHeaderKey n
    · have heq : e = (n, v) := huniq e (List.mem_cons_self e custom) hek
      rw [if_neg (by rw [hek]; exact hnotHost)]
      by_cases hm : (n, v) ∈ custom
      · exact ih _ hm (fun x hx => huniq x (List.mem_cons_of_mem e hx))
      · have hrest : ∀ x ∈ custom, canonicalHeaderKey x.1 ≠ canonicalHeaderKey n := by
          intro x hx hxh
          exact hm ((huniq x (List.mem_cons_of_mem e hx) hxh) ▸ hx)
        rw [applyCustomHeaders_values_of_ne _ hrest]
        have : headerSet d.header e.1 e.2
            = setEntry d.header (canonicalHeaderKey n) v := by
          rw [heq]
          rfl
        rw [this, headerValues_setEntry_self]
    · have hm : (n, v) ∈ custom := by
        rcases List.mem_cons.1 hmem with h1 | h1
        · subst h1
          exact absurd rfl hek
        · exact h1
      by_cases he : canonicalHeaderKey e.1 = strBytes "Host"
      · rw [if_pos he]
        exact ih _ hm (fun x hx => huniq x (List.mem_cons_of_mem e hx))
      · rw [if_neg he]
        exact ih _ hm (fun x hx => huniq x (List.mem_cons_of_mem e hx))

/-! ### Forwarded-header lemmas -/

theorem canonical_xffKey : canonicalHeaderKey xffKey = xffKey := by decide

theorem canonical_xfhKey : canonicalHeaderKey xfhKey = xfhKey := by decide

theorem canonical_xfpKey : canonicalHeaderKey xfpKey = xfpKey := by decide

theorem addForwardedHeaders_host (src : InboundRequest) (dst : OutboundRequest) :
    (addForwardedHeaders src dst).host = dst.host := by
  simp only [addForwardedHeaders]
  split_ifs <;> rfl

theorem addForwardedHeaders_header (src : InboundRequest) (dst : OutboundRequest) :
    (addForwardedHeaders src dst).header
      = setEntry
          (if src.host ≠ "" then
            setEntry
              (if getClientIP src ≠ "" then
                setEntry dst.header xffKey
                  (if headerGet dst.header xffKey ≠ "" then
                    headerGet dst.header xffKey ++ ", " ++ getClientIP src
                  else getClientIP src)
              else dst.header)
              xfhKey src.host
          else
            (if getClientIP src ≠ "" then
              setEntry dst.header xffKey
                (if headerGet dst.header xffKey ≠ "" then
                  headerGet dst.header xffKey ++ ", " ++ getClientIP src
                else getClientIP src)
            else dst.header))
          xfpKey (if src.tls then "https" else "http") := by
  simp only [addForwardedHeaders, headerSet, canonical_xffKey, canonical_xfhKey,
    canonical_xfpKey]
  split_ifs <;> rfl

theorem addForwardedHeaders_values_ne (src : InboundRequest) (dst : OutboundRequest)
    {ck : List Nat} (h1 : ck ≠ xffKey) (h2 : ck ≠ xfhKey) (h3 : ck ≠ xfpKey) :
    headerValues (addForwardedHeaders src dst).header ck
      = headerValues dst.header ck := by
  rw [addForwardedHeaders_header, headerValues_setEntry_ne _ _ h3]
  split_ifs <;>
    first
      | rfl
      | rw [headerValues_setEntry_ne _ _ h2, headerValues_setEntry_ne _ _ h1]
      | rw [headerValues_setEntry_ne _ _ h2]
      | rw [headerValues_setEntry_ne _ _ h1]

/-! ### Copy-loop characterisations -/

theorem copyFiltered_values_skip (src : Header)
    {ck : List Nat} (hck : ck ∈ hopByHopHeaders) :
    headerValues (copyFilteredHeaders src []) ck = [] := by
  unfold copyFilteredHeaders
  rw [headerValues_addEntries]
  have hfilter :
      src.filter (fun e => !shouldSkipHeader e.1 && decide (canonicalHeaderKey e.1 = ck))
        = [] := by
    rw [List.filter_eq_nil_iff]
    intro e he
    simp only [Bool.and_eq_true, Bool.not_eq_true', decide_eq_true_eq, not_and]
    intro hskip hek
    unfold shouldSkipHeader at hskip
    rw [decide_eq_false_iff_not] at hskip
    exact hskip (hek ▸ hck)
  rw [hfilter]
  simp [headerValues]

theorem copyFiltered_values_keep (src : Header)
    (hcanon : ∀ e ∈ src, canonicalHeaderKey e.1 = e.1)
    (hnodup : (src.map Prod.fst).Nodup)
    {ck : List Nat} (hck : ck ∉ hopByHopHeaders) :
    headerValues (copyFilteredHeaders src []) ck = headerValues src ck := by
  unfold copyFilteredHeaders
  rw [headerValues_addEntries]
  have hfilter :
      src.filter (fun e => !shouldSkipHeader e.1 && decide (canonicalHeaderKey e.1 = ck))
        = src.filter (fun e => decide (e.1 = ck)) := by
    apply List.filter_congr
    intro e he
    rw [hcanon e he]
    by_cases hek : e.1 = ck
    · subst hek
      have hskip : shouldSkipHeader e.1 = false := by
        unfold shouldSkipHeader
        rw [decide_eq_false_iff_not]
        rw [hcanon e he]
        exact hck
      simp [hskip]
    · simp [hek]
  rw [hfilter, flatten_filter_key src ck hnodup]
  simp [headerValues]

theorem relayHeaders_values (src : Header)
    (hcanon : ∀ e ∈ src, canonicalHeaderKey e.1 = e.1)
    (hnodup : (src.map Prod.fst).Nodup) (ck : List Nat) :
    headerValues (relayHeaders src) ck = headerValues src ck := by
  unfold relayHeaders
  rw [headerValues_addEntries]
  have hfilter :
      src.filter (fun e => !(fun _ => false) e.1 && decide (canonicalHeaderKey e.1 = ck))
        = src.filter (fun e => decide (e.1 = ck)) := by
    apply List.filter_congr
    intro e he
    rw [hcanon e he]
    simp
  rw [hfilter, flatten_filter_key src ck hnodup]
  simp [headerValues]

/-! ### String-splitting lemmas -/

theorem splitAux_head (sep : Char) (l : List Char) (acc : List Char) :
    ((splitAux sep l acc).head?.getD "")
      = ⟨acc.reverse ++ l.takeWhile (fun c => c ≠ sep)⟩ := by
  induction l generalizing acc with
  | nil => simp [splitAux]
  | cons c cs ih =>
    by_cases hc : c = sep
    · subst hc
      simp [splitAux, List.takeWhile_cons]
    · rw [show splitAux sep (c :: cs) acc = splitAux sep cs (c :: acc) by
        simp [splitAux, hc]]
      rw [ih]
      simp [List.takeWhile_cons, hc]

theorem splitChar_head (s : String) :
    ((splitChar s ',').head?.getD "") = ⟨s.data.takeWhile (fun c => c ≠ ',')⟩ := by
  unfold splitChar
  rw [splitAux_head]
  rfl

/-- `canonicalHeaderKey k = name` forces agreement of the lower-casings. -/
theorem lowerByte_eq_of_canonical_eq {k name : List Nat}
    (h : canonicalHeaderKey k = name) : k.map lowerByte = name.map lowerByte := by
  rw [← h, map_lowerByte_canonicalHeaderKey]

/-! ### Claim theorems -/

/-- C3: for every inbound request and target base URL, `buildTargetURL`
returns a URL whose scheme and host are the base's; when the base path is
non-empty and not `/`, the outbound path is the base path with exactly one
trailing `/` stripped, prepended to the inbound path (an empty inbound
path yields the stripped base path alone), otherwise the inbound path is
unchanged; the raw query is copied verbatim; the function is total, so no
inbound path is rejected, and the path bytes are passed through with no
decoding or normalisation. -/
theorem targetURL_resolution (target : URL) (r : InboundRequest) :
    (buildTargetURL target r).scheme = target.scheme ∧
    (buildTargetURL target r).host = target.host ∧
    (buildTargetURL target r).rawQuery = r.rawQuery ∧
    (target.path ≠ "" ∧ target.path ≠ "/" →
      (buildTargetURL target r).path = trimSuffixSlash target.path ++ r.urlPath) ∧
    (target.path = "" ∨ target.path = "/" →
      (buildTargetURL target r).path = r.urlPath) ∧
    (r.urlPath = "" → target.path ≠ "" ∧ target.path ≠ "/" →
      (buildTargetURL target r).path = trimSuffixSlash target.path) := by
  unfold buildTargetURL
  split_ifs with h
  · refine ⟨rfl, rfl, rfl, fun _ => rfl, fun hc => ?_, fun he _ => ?_⟩
    · rcases hc with hc | hc
      · exact absurd hc h.1
      · exact absurd hc h.2
    · show trimSuffixSlash target.path ++ r.urlPath = trimSuffixSlash target.path
      rw [he]
      simp
  · exact ⟨rfl, rfl, rfl, fun hc => absurd hc h, fun _ => rfl, fun _ hc => absurd hc h⟩

/-- Witness for C3 at concrete inputs: base `https://example.com/base/`
and inbound path `/x` with query `page=1` resolve to path `/base/x` and
the verbatim query. -/
theorem targetURL_resolution_witness :
    (buildTargetURL { scheme := "https", host := "example.com", path := "/base/", rawQuery := "" }
        { method := "GET", urlPath := "/x", rawQuery := "page=1", header := [],
          host := "h", remoteAddr := "1.2.3.4:80", tls := false }).path = "/base/x" ∧
    (buildTargetURL { scheme := "https", host := "example.com", path := "/base/", rawQuery := "" }
        { method := "GET", urlPath := "/x", rawQuery := "page=1", header := [],
          host := "h", remoteAddr := "1.2.3.4:80", tls := false }).rawQuery = "page=1" := by
  have h := targetURL_resolution
    { scheme := "https", host := "example.com", path := "/base/", rawQuery := "" }
    { method := "GET", urlPath := "/x", rawQuery := "page=1", header := [],
      host := "h", remoteAddr := "1.2.3.4:80", tls := false }
  refine ⟨?_, h.2.2.1⟩
  rw [h.2.2.2.1 (by decide)]
  decide

/-- C4: forwarded-context injection appends the derived client IP to an
existing outbound `X-Forwarded-For` value as `"<prior>, <ip>"`, sets it to
the IP alone otherwise, and leaves the header untouched when the client IP
is empty; `X-Forwarded-Host` is set verbatim to a non-empty inbound Host
and stays absent when the inbound Host is empty and it was absent before;
`X-Forwarded-Proto` is `https` exactly when the inbound connection was
TLS-terminated, else `http`. -/
theorem forwarded_header_injection (src : InboundRequest) (dst : OutboundRequest) :
    (getClientIP src ≠ "" →
      headerValuesOf (addForwardedHeaders src dst).header xffKey
        = [if headerGet dst.header xffKey ≠ ""
           then headerGet dst.header xffKey ++ ", " ++ getClientIP src
           else getClientIP src]) ∧
    (getClientIP src = "" →
      headerValuesOf (addForwardedHeaders src dst).header xffKey
        = headerValuesOf dst.header xffKey) ∧
    (src.host ≠ "" →
      headerValuesOf (addForwardedHeaders src dst).header xfhKey = [src.host]) ∧
    (src.host = "" → headerValuesOf dst.header xfhKey = [] →
      headerValuesOf (addForwardedHeaders src dst).header xfhKey = []) ∧
    headerValuesOf (addForwardedHeaders src dst).header xfpKey
      = [if src.tls then "https" else "http"] := by
  have hne1 : xffKey ≠ xfpKey := by decide
  have hne2 : xffKey ≠ xfhKey := by decide
  have hne3 : xfhKey ≠ xfpKey := by decide
  have hne4 : xfhKey ≠ xffKey := by decide
  refine ⟨?_, ?_, ?_, ?_, ?_⟩
  · intro hip
    unfold headerValuesOf
    rw [canonical_xffKey, addForwardedHeaders_header, headerValues_setEntry_ne _ _ hne1]
    by_cases hh : src.host ≠ ""
    · rw [if_pos hh, headerValues_setEntry_ne _ _ hne2, if_pos hip,
        headerValues_setEntry_self]
    · rw [if_neg hh, if_pos hip, headerValues_setEntry_self]
  · intro hip
    have hip' : ¬getClientIP src ≠ "" := by simp [hip]
    unfold headerValuesOf
    rw [canonical_xffKey, addForwardedHeaders_header, headerValues_setEntry_ne _ _ hne1]
    by_cases hh : src.host ≠ ""
    · rw [if_pos hh, headerValues_setEntry_ne _ _ hne2, if_neg hip']
    · rw [if_neg hh, if_neg hip']
  · intro hh
    unfold headerValuesOf
    rw [canonical_xfhKey, addForwardedHeaders_header, headerValues_setEntry_ne _ _ hne3,
      if_pos hh, headerValues_setEntry_self]
  · intro hh hempty
    unfold headerValuesOf at hempty ⊢
    rw [canonical_xfhKey] at hempty
    rw [canonical_xfhKey, addForwardedHeaders_header, headerValues_setEntry_ne _ _ hne3,
      if_neg (by simp [hh])]
    by_cases hip : getClientIP src ≠ ""
    · rw [if_pos hip, headerValues_setEntry_ne _ _ hne4]
      exact hempty
    · rw [if_neg hip]
      exact hempty
  · unfold headerValuesOf
    rw [canonical_xfpKey, addForwardedHeaders_header, headerValues_setEntry_self]

/-- Witness for C4: a TLS inbound request whose own `X-Forwarded-For` is
`1.1.1.1`, against an outbound request already carrying `10.0.0.1`, yields
`X-Forwarded-For: 10.0.0.1, 1.1.1.1`, `X-Forwarded-Host` verbatim and
`X-Forwarded-Proto: https`. -/
theorem forwarded_header_injection_witness :
    headerValuesOf
        (addForwardedHeaders
          { method := "GET", urlPath := "/", rawQuery := ""
            header := [(strBytes "X-Forwarded-For", ["1.1.1.1"])]
            host := "in.example", remoteAddr := "9.9.9.9:1", tls := true }
          { method := "GET", url := { scheme := "http", host := "b", path := "/", rawQuery := "" }
            header := [(strBytes "X-Forwarded-For", ["10.0.0.1"])], host := "b" }).header
        xffKey
      = ["10.0.0.1, 1.1.1.1"] ∧
    headerValuesOf
        (addForwardedHeaders
          { method := "GET", urlPath := "/", rawQuery := ""
            header := [(strBytes "X-Forwarded-For", ["1.1.1.1"])]
            host := "in.example", remoteAddr := "9.9.9.9:1", tls := true }
          { method := "GET", url := { scheme := "http", host := "b", path := "/", rawQuery := "" }
            header := [(strBytes "X-Forwarded-For", ["10.0.0.1"])], host := "b" }).header
        xfpKey
      = ["https"] := by
  have h := forwarded_header_injection
    { method := "GET", urlPath := "/", rawQuery := ""
      header := [(strBytes "X-Forwarded-For", ["1.1.1.1"])]
      host := "in.example", remoteAddr := "9.9.9.9:1", tls := true }
    { method := "GET", url := { scheme := "http", host := "b", path := "/", rawQuery := "" }
      header := [(strBytes "X-Forwarded-For", ["10.0.0.1"])], host := "b" }
  constructor
  · rw [h.1 (by decide)]
    decide
  · rw [h.2.2.2.2]
    decide

/-- C5: `getClientIP` returns, in strict precedence order, the first
comma-separated entry of the inbound request's own `X-Forwarded-For`
header trimmed of surrounding whitespace when that header is present, else
the `X-Real-IP` value when present, else the host portion of the peer
address with a trailing port stripped when one is syntactically present
(the whole peer address when no port can be split off). -/
theorem getClientIP_precedence (r : InboundRequest) :
    (headerGet r.header xffKey ≠ "" →
      getClientIP r
        = trimSpace ⟨(headerGet r.header xffKey).data.takeWhile (fun c => c ≠ ',')⟩) ∧
    (headerGet r.header xffKey = "" → headerGet r.header xRealIPKey ≠ "" →
      getClientIP r = headerGet r.header xRealIPKey) ∧
    (headerGet r.header xffKey = "" → headerGet r.header xRealIPKey = "" →
      getClientIP r
        = (match splitHostPort r.remoteAddr with
           | some hp => hp.1
           | none => r.remoteAddr)) := by
  refine ⟨?_, ?_, ?_⟩
  · intro hxff
    unfold getClientIP
    rw [if_pos hxff, splitChar_head]
  · intro hxff hreal
    unfold getClientIP
    rw [if_neg (by simp [hxff]), if_pos hreal]
  · intro hxff hreal
    unfold getClientIP
    rw [if_neg (by simp [hxff]), if_neg (by simp [hreal])]
    cases splitHostPort r.remoteAddr <;> rfl

/-- Witness for C5: `X-Forwarded-For: "  10.0.0.1  , 10.0.0.2"` yields
`10.0.0.1`; with no forwarding headers the peer `192.168.1.100:5678`
yields `192.168.1.100`, and the portless peer `192.168.1.100` is returned
whole. -/
theorem getClientIP_precedence_witness :
    getClientIP
        { method := "GET", urlPath := "/", rawQuery := ""
          header := [(strBytes "X-Forwarded-For", ["  10.0.0.1  , 10.0.0.2"])]
          host := "h", remoteAddr := "9.9.9.9:1", tls := false } = "10.0.0.1" ∧
    getClientIP
        { method := "GET", urlPath := "/", rawQuery := "", header := []
          host := "h", remoteAddr := "192.168.1.100:5678", tls := false } = "192.168.1.100" ∧
    getClientIP
        { method := "GET", urlPath := "/", rawQuery := "", header := []
          host := "h", remoteAddr := "192.168.1.100", tls := false } = "192.168.1.100" := by
  refine ⟨?_, ?_, ?_⟩
  · rw [(getClientIP_precedence
      { method := "GET", urlPath := "/", rawQuery := ""
        header := [(strBytes "X-Forwarded-For", ["  10.0.0.1  , 10.0.0.2"])]
        host := "h", remoteAddr := "9.9.9.9:1", tls := false }).1 (by decide)]
    decide
  · rw [(getClientIP_precedence
      { method := "GET", urlPath := "/", rawQuery := "", header := []
        host := "h", remoteAddr := "192.168.1.100:5678", tls := false }).2.2
      (by decide) (by decide)]
    decide
  · rw [(getClientIP_precedence
      { method := "GET", urlPath := "/", rawQuery := "", header := []
        host := "h", remoteAddr := "192.168.1.100", tls := false }).2.2
      (by decide) (by decide)]
    decide

/-- C2: for an inbound header map (canonical, duplicate-free keys, as the
Go HTTP server delivers), the copy loop of `copyHeaders` drops every
header whose name case-insensitively matches one of the eight hop-by-hop
names entirely, and copies every other name's values with exact
multiplicity and order, before forwarded-header injection and overrides
run. -/
theorem hop_by_hop_filtering (src : Header)
    (hcanon : ∀ e ∈ src, canonicalHeaderKey e.1 = e.1)
    (hnodup : (src.map Prod.fst).Nodup) (name : List Nat) :
    (name.map lowerByte ∈ hopByHopLower →
      headerValuesOf (copyFilteredHeaders src []) name = []) ∧
    (name.map lowerByte ∉ hopByHopLower →
      headerValuesOf (copyFilteredHeaders src []) name = headerValuesOf src name) := by
  constructor
  · intro hmem
    have hskip : shouldSkipHeader name = true := (shouldSkipHeader_iff name).2 hmem
    unfold shouldSkipHeader at hskip
    rw [decide_eq_true_eq] at hskip
    exact copyFiltered_values_skip src hskip
  · intro hmem
    have hskip : shouldSkipHeader name = false := by
      rcases Bool.eq_false_or_eq_true (shouldSkipHeader name) with h | h
      · exact absurd ((shouldSkipHeader_iff name).1 h) hmem
      · exact h
    unfold shouldSkipHeader at hskip
    rw [decide_eq_false_iff_not] at hskip
    exact copyFiltered_values_keep src hcanon hnodup hskip

/-- Witness for C2: two `Connection` values are dropped entirely (looked
up under any case variant) while two `Accept` values survive in order. -/
theorem hop_by_hop_filtering_witness :
    headerValuesOf
        (copyFilteredHeaders
          [(strBytes "Connection", ["keep-alive", "upgrade"]),
           (strBytes "Accept", ["text/html", "application/json"])] [])
        (strBytes "CONNECTION") = [] ∧
    headerValuesOf
        (copyFilteredHeaders
          [(strBytes "Connection", ["keep-alive", "upgrade"]),
           (strBytes "Accept", ["text/html", "application/json"])] [])
        (strBytes "Accept") = ["text/html", "application/json"] := by
  have h1 := (hop_by_hop_filtering
    [(strBytes "Connection", ["keep-alive", "upgrade"]),
     (strBytes "Accept", ["text/html", "application/json"])]
    (by decide) (by decide) (strBytes "CONNECTION")).1 (by decide)
  have h2 := (hop_by_hop_filtering
    [(strBytes "Connection", ["keep-alive", "upgrade"]),
     (strBytes "Accept", ["text/html", "application/json"])]
    (by decide) (by decide) (strBytes "Accept")).2 (by decide)
  exact ⟨h1, by rw [h2]; decide⟩

/-- Counterexample to C1 as stated: with the single configured override
`X-Forwarded-Proto: https` (whose name is not `Host`) and a plain
non-TLS inbound request, the outbound request does not carry the override
value: `addForwardedHeaders` runs after the overrides in `ServeHTTP` and
overwrites it with `http`. -/
theorem override_not_last_counterexample :
    ¬ headerValuesOf
        (buildOutboundRequest
          { scheme := "http", host := "backend.example", path := "", rawQuery := "" }
          [(strBytes "X-Forwarded-Proto", "https")]
          { method := "GET", urlPath := "/", rawQuery := "", header := []
            host := "client.example", remoteAddr := "1.2.3.4:5678", tls := false }).header
        xfpKey = ["https"] := by
  decide

/-- C1 (amended): a configured override whose name is case-insensitively
neither `Host` nor one of the forwarded-context names `X-Forwarded-For`,
`X-Forwarded-Host`, `X-Forwarded-Proto`, and whose canonical name no other
override shares, ends with exactly the single override value in the final
outbound header map: it replaces values copied from the inbound request.
Overrides are applied after the filtered copy and the Host rewrite but
before forwarded-context injection, which is why the forwarded-context
names are excluded. -/
theorem override_single_value (target : URL) (custom : List (List Nat × String))
    (r : InboundRequest) (n : List Nat) (v : String)
    (hmem : (n, v) ∈ custom)
    (huniq : ∀ e ∈ custom, canonicalHeaderKey e.1 = canonicalHeaderKey n → e = (n, v))
    (hhost : n.map lowerByte ≠ strBytes "host")
    (hxff : n.map lowerByte ≠ strBytes "x-forwarded-for")
    (hxfh : n.map lowerByte ≠ strBytes "x-forwarded-host")
    (hxfp : n.map lowerByte ≠ strBytes "x-forwarded-proto") :
    headerValuesOf (buildOutboundRequest target custom r).header n = [v] := by
  have hch : canonicalHeaderKey n ≠ strBytes "Host" := by
    intro h
    exact hhost (lowerByte_eq_of_canonical_eq h ▸ (by decide :
      (strBytes "Host").map lowerByte = strBytes "host"))
  have hc1 : canonicalHeaderKey n ≠ xffKey := by
    intro h
    exact hxff (lowerByte_eq_of_canonical_eq h ▸ (by decide :
      xffKey.map lowerByte = strBytes "x-forwarded-for"))
  have hc2 : canonicalHeaderKey n ≠ xfhKey := by
    intro h
    exact hxfh (lowerByte_eq_of_canonical_eq h ▸ (by decide :
      xfhKey.map lowerByte = strBytes "x-forwarded-host"))
  have hc3 : canonicalHeaderKey n ≠ xfpKey := by
    intro h
    exact hxfp (lowerByte_eq_of_canonical_eq h ▸ (by decide :
      xfpKey.map lowerByte = strBytes "x-forwarded-proto"))
  unfold headerValuesOf
  unfold buildOutboundRequest copyHeaders
  rw [addForwardedHeaders_values_ne _ _ hc1 hc2 hc3]
  exact applyCustomHeaders_values_override _ hmem huniq hch

/-- Witness for C1 (amended): the override `X-Api-Key: secret` replaces
two copied inbound `X-Api-Key` values with exactly the single override
value. -/
theorem override_single_value_witness :
    headerValuesOf
        (buildOutboundRequest
          { scheme := "http", host := "backend.example", path := "", rawQuery := "" }
          [(strBytes "X-Api-Key", "secret")]
          { method := "GET", urlPath := "/", rawQuery := ""
            header := [(strBytes "X-Api-Key", ["a", "b"])]
            host := "client.example", remoteAddr := "1.2.3.4:5678", tls := false }).header
        (strBytes "X-Api-Key") = ["secret"] :=
  override_single_value
    { scheme := "http", host := "backend.example", path := "", rawQuery := "" }
    [(strBytes "X-Api-Key", "secret")]
    { method := "GET", urlPath := "/", rawQuery := ""
      header := [(strBytes "X-Api-Key", ["a", "b"])]
      host := "client.example", remoteAddr := "1.2.3.4:5678", tls := false }
    (strBytes "X-Api-Key") "secret"
    (by decide) (by decide) (by decide) (by decide) (by decide) (by decide)

/-- C6: `ServeHTTP` maps failures to exactly two statuses with no retry:
a failed outbound-request construction yields HTTP 500 with the cause
logged and the forwarding client never invoked, and a failed execution of
the outbound request yields HTTP 502 with the cause logged; in both cases
handling of the request ends there (the returned result is final). -/
theorem error_status_mapping (target : URL) (custom : List (List Nat × String))
    (r : InboundRequest) (doRequest : OutboundRequest → Except String BackendResponse)
    (bodyCopyErr : Option String) :
    (∀ e, serveHTTP target custom r (some e) doRequest bodyCopyErr
        = { statusCode := 500, header := [], backendContacted := false
            logged := [.createRequestError e] }) ∧
    (∀ e, doRequest (buildOutboundRequest target custom r) = .error e →
      serveHTTP target custom r none doRequest bodyCopyErr
        = { statusCode := 502, header := [], backendContacted := true
            logged := [.accessLog r.method r.urlPath (buildTargetURL target r),
                       .proxyError e] }) := by
  constructor
  · intro e
    rfl
  · intro e he
    simp only [buildOutboundRequest] at he
    simp only [serveHTTP]
    rw [he]
    rfl

/-- Witness for C6: with failing construction the result is exactly the
500 response with the client uncontacted; with a refused connection the
result is exactly the 502 response. -/
theorem error_status_mapping_witness :
    serveHTTP { scheme := "http", host := "backend.example", path := "", rawQuery := "" } []
        { method := "BAD METHOD", urlPath := "/", rawQuery := "", header := []
          host := "c", remoteAddr := "1.2.3.4:5678", tls := false }
        (some "net/http: invalid method")
        (fun _ => .error "unreachable") none
      = { statusCode := 500, header := [], backendContacted := false
          logged := [.createRequestError "net/http: invalid method"] } ∧
    serveHTTP { scheme := "http", host := "backend.example", path := "", rawQuery := "" } []
        { method := "GET", urlPath := "/", rawQuery := "", header := []
          host := "c", remoteAddr := "1.2.3.4:5678", tls := false }
        none (fun _ => .error "connection refused") none
      = { statusCode := 502, header := [], backendContacted := true
          logged := [.accessLog "GET" "/"
                       { scheme := "http", host := "backend.example", path := "/", rawQuery := "" },
                     .proxyError "connection refused"] } := by
  constructor
  · exact (error_status_mapping
      { scheme := "http", host := "backend.example", path := "", rawQuery := "" } []
      { method := "BAD METHOD", urlPath := "/", rawQuery := "", header := []
        host := "c", remoteAddr := "1.2.3.4:5678", tls := false }
      (fun _ => .error "unreachable") none).1 "net/http: invalid method"
  · rw [(error_status_mapping
      { scheme := "http", host := "backend.example", path := "", rawQuery := "" } []
      { method := "GET", urlPath := "/", rawQuery := "", header := []
        host := "c", remoteAddr := "1.2.3.4:5678", tls := false }
      (fun _ => .error "connection refused") none).2 "connection refused" rfl]
    decide

/-- C7: on a successful backend response (with the canonical,
duplicate-free header keys the Go client produces), the relay copies every
header name with every value and its multiplicity to the caller, writes
the backend status code unchanged, and a body-copy failure is only logged,
never converted into a different status code. -/
theorem response_relay (target : URL) (custom : List (List Nat × String))
    (r : InboundRequest) (doRequest : OutboundRequest → Except String BackendResponse)
    (bodyCopyErr : Option String) (resp : BackendResponse)
    (hok : doRequest (buildOutboundRequest target custom r) = .ok resp)
    (hcanon : ∀ e ∈ resp.header, canonicalHeaderKey e.1 = e.1)
    (hnodup : (resp.header.map Prod.fst).Nodup) :
    (serveHTTP target custom r none doRequest bodyCopyErr).statusCode = resp.statusCode ∧
    (∀ name,
      headerValuesOf (serveHTTP target custom r none doRequest bodyCopyErr).header name
        = headerValuesOf resp.header name) ∧
    (∀ e, bodyCopyErr = some e →
      (serveHTTP target custom r none doRequest bodyCopyErr).statusCode = resp.statusCode ∧
      LogEvent.copyBodyError e
        ∈ (serveHTTP target custom r none doRequest bodyCopyErr).logged) := by
  have hs : serveHTTP target custom r none doRequest bodyCopyErr
      = { statusCode := resp.statusCode, header := relayHeaders resp.header
          backendContacted := true
          logged := [LogEvent.accessLog r.method r.urlPath (buildTargetURL target r)] ++
            (match bodyCopyErr with
             | some e => [LogEvent.copyBodyError e]
             | none => []) } := by
    simp only [buildOutboundRequest] at hok
    simp only [serveHTTP]
    rw [hok]
  refine ⟨by rw [hs], fun name => ?_, fun e he => ⟨by rw [hs], ?_⟩⟩
  · rw [hs]
    unfold headerValuesOf
    exact relayHeaders_values resp.header hcanon hnodup _
  · rw [hs, he]
    simp

/-- Witness for C7: a 201 backend response with two `Set-Cookie` values is
relayed with the same status and both values, and a broken-pipe body copy
is logged while the status stays 201. -/
theorem response_relay_witness :
    (serveHTTP { scheme := "http", host := "b.example", path := "", rawQuery := "" } []
        { method := "GET", urlPath := "/", rawQuery := "", header := []
          host := "c", remoteAddr := "1.2.3.4:5678", tls := false }
        none
        (fun _ => .ok { statusCode := 201
                        header := [(strBytes "Content-Type", ["application/json"]),
                                   (strBytes "Set-Cookie", ["a=1", "b=2"])] })
        (some "write: broken pipe")).statusCode = 201 ∧
    headerValuesOf
        (serveHTTP { scheme := "http", host := "b.example", path := "", rawQuery := "" } []
          { method := "GET", urlPath := "/", rawQuery := "", header := []
            host := "c", remoteAddr := "1.2.3.4:5678", tls := false }
          none
          (fun _ => .ok { statusCode := 201
                          header := [(strBytes "Content-Type", ["application/json"]),
                                     (strBytes "Set-Cookie", ["a=1", "b=2"])] })
          (some "write: broken pipe")).header
        (strBytes "Set-Cookie") = ["a=1", "b=2"] ∧
    LogEvent.copyBodyError "write: broken pipe"
      ∈ (serveHTTP { scheme := "http", host := "b.example", path := "", rawQuery := "" } []
          { method := "GET", urlPath := "/", rawQuery := "", header := []
            host := "c", remoteAddr := "1.2.3.4:5678", tls := false }
          none
          (fun _ => .ok { statusCode := 201
                          header := [(strBytes "Content-Type", ["application/json"]),
                                     (strBytes "Set-Cookie", ["a=1", "b=2"])] })
          (some "write: broken pipe")).logged := by
  have h := response_relay
    { scheme := "http", host := "b.example", path := "", rawQuery := "" } []
    { method := "GET", urlPath := "/", rawQuery := "", header := []
      host := "c", remoteAddr := "1.2.3.4:5678", tls := false }
    (fun _ => .ok { statusCode := 201
                    header := [(strBytes "Content-Type", ["application/json"]),
                               (strBytes "Set-Cookie", ["a=1", "b=2"])] })
    (some "write: broken pipe")
    { statusCode := 201
      header := [(strBytes "Content-Type", ["application/json"]),
                 (strBytes "Set-Cookie", ["a=1", "b=2"])] }
    rfl (by decide) (by decide)
  refine ⟨h.1, ?_, (h.2.2 "write: broken pipe" rfl).2⟩
  rw [h.2.1 (strBytes "Set-Cookie")]
  decide

/-- C8: the outbound Host field defaults to the target base URL's host,
overriding the inbound Host; a custom override case-insensitively named
`Host` (unique among the overrides' canonical names) sets the outbound
Host field to the override value instead, and creates no `Host` entry in
the header multimap. -/
theorem host_rewrite (target : URL) (custom : List (List Nat × String))
    (r : InboundRequest) :
    ((∀ e ∈ custom, e.1.map lowerByte ≠ strBytes "host") →
      (buildOutboundRequest target custom r).host = target.host) ∧
    (∀ n v, (n, v) ∈ custom →
      (∀ e ∈ custom, canonicalHeaderKey e.1 = strBytes "Host" → e = (n, v)) →
      n.map lowerByte = strBytes "host" →
      (buildOutboundRequest target custom r).host = v ∧
      ((∀ e ∈ r.header, canonicalHeaderKey e.1 = e.1) →
        (r.header.map Prod.fst).Nodup →
        headerValuesOf r.header (strBytes "Host") = [] →
        headerValuesOf (buildOutboundRequest target custom r).header (strBytes "Host")
          = [])) := by
  constructor
  · intro hno
    unfold buildOutboundRequest copyHeaders
    rw [addForwardedHeaders_host]
    exact applyCustomHeaders_host_of_no_host _
      (fun e he hc => hno e he (lowerByte_eq_of_canonical_eq hc ▸ (by decide :
        (strBytes "Host").map lowerByte = strBytes "host")))
  · intro n v hmem huniq hlow
    have hn : canonicalHeaderKey n = strBytes "Host" := by
      refine (canonicalHeaderKey_eq_iff_lowerByte_eq (by decide) (by decide) n).2 ?_
      rw [hlow]
      decide
    constructor
    · unfold buildOutboundRequest copyHeaders
      rw [addForwardedHeaders_host]
      exact applyCustomHeaders_host_override _ hmem huniq hn
    · intro hcanon hnodup hempty
      unfold headerValuesOf at hempty ⊢
      rw [(by decide : canonicalHeaderKey (strBytes "Host") = strBytes "Host")] at hempty ⊢
      unfold buildOutboundRequest copyHeaders
      rw [addForwardedHeaders_values_ne _ _ (by decide) (by decide) (by decide),
        applyCustomHeaders_host_header_values]
      show headerValues (copyFilteredHeaders r.header []) (strBytes "Host") = []
      rw [copyFiltered_values_keep r.header hcanon hnodup (by decide)]
      exact hempty

/-- Witness for C8: with no overrides the outbound Host is the target
host; with the single override `hOsT: api.example.com` the outbound Host
field becomes `api.example.com` while the header multimap stays free of
`Host`. -/
theorem host_rewrite_witness :
    (buildOutboundRequest
        { scheme := "http", host := "backend.example", path := "", rawQuery := "" } []
        { method := "GET", urlPath := "/", rawQuery := "", header := []
          host := "client.example", remoteAddr := "1.2.3.4:5678", tls := false }).host
      = "backend.example" ∧
    (buildOutboundRequest
        { scheme := "http", host := "backend.example", path := "", rawQuery := "" }
        [(strBytes "hOsT", "api.example.com")]
        { method := "GET", urlPath := "/", rawQuery := "", header := []
          host := "client.example", remoteAddr := "1.2.3.4:5678", tls := false }).host
      = "api.example.com" ∧
    headerValuesOf
        (buildOutboundRequest
          { scheme := "http", host := "backend.example", path := "", rawQuery := "" }
          [(strBytes "hOsT", "api.example.com")]
          { method := "GET", urlPath := "/", rawQuery := "", header := []
            host := "client.example", remoteAddr := "1.2.3.4:5678", tls := false }).header
        (strBytes "Host") = [] := by
  have h1 := (host_rewrite
    { scheme := "http", host := "backend.example", path := "", rawQuery := "" } []
    { method := "GET", urlPath := "/", rawQuery := "", header := []
      host := "client.example", remoteAddr := "1.2.3.4:5678", tls := false }).1
    (by decide)
  have h2 := (host_rewrite
    { scheme := "http", host := "backend.example", path := "", rawQuery := "" }
    [(strBytes "hOsT", "api.example.com")]
    { method := "GET", urlPath := "/", rawQuery := "", header := []
      host := "client.example", remoteAddr := "1.2.3.4:5678", tls := false }).2
    (strBytes "hOsT") "api.example.com" (by decide) (by decide) (by decide)
  exact ⟨h1, h2.1, h2.2 (by decide) (by decide) (by decide)⟩

/-- C9: `NewProxy` errors exactly when the target URL is nil or the listen
address is empty; a zero timeout is silently replaced by a 30-second
default and a nil logger by the default logger, and every other
configuration yields a proxy instance. -/
theorem newProxy_validation (config : ProxyConfig) (logger : Option Logger) :
    (config.targetURL = none →
      NewProxy config logger = .error "target URL cannot be nil") ∧
    (config.targetURL ≠ none → config.listenAddr = "" →
      NewProxy config logger = .error "listen address cannot be empty") ∧
    (config.targetURL ≠ none → config.listenAddr ≠ "" →
      NewProxy config logger
        = .ok { config := { config with
                  timeout := if config.timeout = 0 then 30 * nsPerSecond
                             else config.timeout }
                clientTimeout := if config.timeout = 0 then 30 * nsPerSecond
                                 else config.timeout
                logger := logger.getD Logger.default }) := by
  refine ⟨fun h1 => ?_, fun h1 h2 => ?_, fun h1 h2 => ?_⟩
  · unfold NewProxy
    rw [if_pos h1]
  · unfold NewProxy
    rw [if_neg h1, if_pos h2]
  · unfold NewProxy
    rw [if_neg h1, if_neg h2]
    cases logger <;> by_cases ht : config.timeout = 0 <;> simp [ht, Option.getD]

/-- Witness for C9: a configuration with a target, listen address `:8080`,
zero timeout and nil logger yields a proxy with the 30-second default
timeout and the default logger. -/
theorem newProxy_validation_witness :
    NewProxy
        { listenAddr := ":8080"
          targetURL := some { scheme := "http", host := "b.example", path := "", rawQuery := "" }
          timeout := 0, customHeaders := [] } none
      = .ok { config := { listenAddr := ":8080"
                          targetURL := some { scheme := "http", host := "b.example"
                                              path := "", rawQuery := "" }
                          timeout := 30000000000, customHeaders := [] }
              clientTimeout := 30000000000
              logger := Logger.default } := by
  rw [(newProxy_validation
    { listenAddr := ":8080"
      targetURL := some { scheme := "http", host := "b.example", path := "", rawQuery := "" }
      timeout := 0, customHeaders := [] } none).2.2 (by decide) (by decide)]
  rfl

/-- C10: a non-empty inbound `X-Forwarded-For` makes `getClientIP` a
function of that header alone (neither `X-Real-IP` nor the peer address is
consulted); when the first comma-separated entry trims to the empty
string, the derived client IP is empty and the outbound `X-Forwarded-For`
injection is suppressed entirely, leaving the outbound header values
unchanged, despite a valid peer address being available. -/
theorem xff_first_entry_priority (r : InboundRequest)
    (hxff : headerGet r.header xffKey ≠ "") :
    getClientIP r
      = trimSpace ⟨(headerGet r.header xffKey).data.takeWhile (fun c => c ≠ ',')⟩ ∧
    (trimSpace ⟨(headerGet r.header xffKey).data.takeWhile (fun c => c ≠ ',')⟩ = "" →
      getClientIP r = "" ∧
      ∀ dst : OutboundRequest,
        headerValuesOf (addForwardedHeaders r dst).header xffKey
          = headerValuesOf dst.header xffKey) := by
  have hne1 : xffKey ≠ xfpKey := by decide
  have hne2 : xffKey ≠ xfhKey := by decide
  have h1 : getClientIP r
      = trimSpace ⟨(headerGet r.header xffKey).data.takeWhile (fun c => c ≠ ',')⟩ := by
    unfold getClientIP
    rw [if_pos hxff, splitChar_head]
  refine ⟨h1, fun htrim => ⟨h1.trans htrim, fun dst => ?_⟩⟩
  have hip : ¬getClientIP r ≠ "" := by simp [h1.trans htrim]
  unfold headerValuesOf
  rw [canonical_xffKey, addForwardedHeaders_header, headerValues_setEntry_ne _ _ hne1]
  by_cases hh : r.host ≠ ""
  · rw [if_pos hh, headerValues_setEntry_ne _ _ hne2, if_neg hip]
  · rw [if_neg hh, if_neg hip]

/-- Witness for C10: inbound `X-Forwarded-For: "  ,10.0.0.2"` (first entry
all whitespace) with `X-Real-IP: 8.8.8.8` and peer `9.9.9.9:1` available
still derives an empty client IP, and an outbound request already carrying
`X-Forwarded-For: 5.5.5.5` keeps exactly that value. -/
theorem xff_first_entry_priority_witness :
    getClientIP
        { method := "GET", urlPath := "/", rawQuery := ""
          header := [(strBytes "X-Forwarded-For", ["  ,10.0.0.2"]),
                     (strBytes "X-Real-IP", ["8.8.8.8"])]
          host := "h", remoteAddr := "9.9.9.9:1", tls := false } = "" ∧
    headerValuesOf
        (addForwardedHeaders
          { method := "GET", urlPath := "/", rawQuery := ""
            header := [(strBytes "X-Forwarded-For", ["  ,10.0.0.2"]),
                       (strBytes "X-Real-IP", ["8.8.8.8"])]
            host := "h", remoteAddr := "9.9.9.9:1", tls := false }
          { method := "GET", url := { scheme := "http", host := "b", path := "/", rawQuery := "" }
            header := [(strBytes "X-Forwarded-For", ["5.5.5.5"])], host := "b" }).header
        xffKey = ["5.5.5.5"] := by
  have h := (xff_first_entry_priority
    { method := "GET", urlPath := "/", rawQuery := ""
      header := [(strBytes "X-Forwarded-For", ["  ,10.0.0.2"]),
                 (strBytes "X-Real-IP", ["8.8.8.8"])]
      host := "h", remoteAddr := "9.9.9.9:1", tls := false }
    (by decide)).2 (by decide)
  refine ⟨h.1, ?_⟩
  rw [h.2 { method := "GET", url := { scheme := "http", host := "b", path := "/", rawQuery := "" }
            header := [(strBytes "X-Forwarded-For", ["5.5.5.5"])], host := "b" }]
  decide

end GoReflector
